import Mathlib

/-!
Shallow embedding of the connection-establishment and keep-alive core of
`src/TheBombe.js` (the `BombeMachine` object), together with proofs of the
specification's claims about it.

The embedding follows the source:

* `makeFirstContactResponse` models the response handler installed by
  `BombeMachine.prototype.makeFirstContact` (TheBombe.js lines 88-131): it
  locates the first brace in the HTTP response body, parses the JSON from
  there, and copies the truthy `sid` / `pingInterval` / `pingTimeout` fields
  onto the machine.  JSON parsing itself is an external capability of the
  core (the spec excludes it), so it is passed in as a function parameter.
* `connectWebsocket` models `BombeMachine.prototype.connectWebsocket`
  (lines 148-167): the synchronous validation of alternate handshake data
  and the transition to opening the websocket (network I/O).
* `Conn` and its operations (`onReceive`, `onSend`, `removeHandler`, `send`,
  `ping`, `onmessage`) model the closures installed in the
  `websocket.onopen` handler (lines 170-240).  Handler callbacks are opaque
  (type parameters); their invocations are recorded as `Event` values in the
  order the source would call them.
* `APState` with `startAutoPing` / `stopAutoPing` models the auto-ping
  timer-handle state machine (lines 243-277); `tickBody` / `runTick` model
  one tick of the `setInterval` callback and the race between the pong
  callback and the `setTimeout` watchdog (lines 257-266).
-/

namespace TheBombe

/-- JSON values, the shape of data produced by the external JSON parser and
consumed by the handshake code. -/
inductive JVal where
  | jnull : JVal
  | jbool : Bool → JVal
  | jnum : Int → JVal
  | jstr : String → JVal
  | jarr : List JVal → JVal
  | jobj : List (String × JVal) → JVal

/-- JavaScript property read `j[key]`: `none` plays the role of `undefined`.
On non-objects the source can only ever reach numbers here (a brace-free
response body parses from its last character, which succeeds only for a
digit), and property access on a JS number yields `undefined`. -/
def jGet : JVal → String → Option JVal
  | .jobj fields, key => (fields.find? (fun p => p.1 == key)).map (fun p => p.2)
  | _, _ => none

/-- JavaScript truthiness of a possibly-`undefined` value, as used by
`if (JSONResponse["sid"])` and the `connectWebsocket` checks: `undefined`,
`null`, `false`, `0` and the empty string are falsy. -/
def truthy : Option JVal → Bool
  | none => false
  | some .jnull => false
  | some (.jbool b) => b
  | some (.jnum n) => n != 0
  | some (.jstr s) => s != ""
  | some (.jarr _) => true
  | some (.jobj _) => true

/-- The character `{` (written by code point to keep it out of literals). -/
def lbrace : Char := Char.ofNat 123

/-- JavaScript `String.prototype.indexOf` for a single character: the index
of the first occurrence, or `-1`. -/
def jsIndexOf (s : String) (c : Char) : Int :=
  match s.toList.findIdx? (fun d => d == c) with
  | some i => Int.ofNat i
  | none => -1

/-- JavaScript `String.prototype.substr(start)`: a negative start counts
back from the end of the string (clamped at 0). -/
def jsSubstr (s : String) (start : Int) : String :=
  let len : Int := Int.ofNat s.length
  let st : Int := if start < 0 then max (len + start) 0 else start
  String.mk (s.toList.drop st.toNat)

/-- The per-machine fields of `BombeMachine` touched by first contact and
the websocket upgrade (constructor, lines 37-50).  The three data fields
hold the raw JSON values assigned by the source; `none` is the initial
`null`. -/
structure MachineState where
  hasMadeFirstContact : Bool
  sid : Option JVal
  requiredPingInterval : Option JVal
  pingTimeout : Option JVal

/-- A fresh `BombeMachine` (constructor, lines 39-44). -/
def machineInit : MachineState :=
  { hasMadeFirstContact := false, sid := none,
    requiredPingInterval := none, pingTimeout := none }

def parseErrorMsg : String :=
  "Bombe Machine - First Contact: Failed to parse JSON response."

def sidWarnMsg : String :=
  "WARNING: Unable to automatically set sid for BombeMachine object."

def pingIntervalWarnMsg : String :=
  "WARNING: Unable to automatically set requiredPingInterval for BombeMachine object."

def pingTimeoutWarnMsg : String :=
  "WARNING: Unable to automatically set pingTimeout for BombeMachine object."

/-- Everything observable about one run of the `onreadystatechange` handler
of `makeFirstContact` once the server has finished responding: the updated
machine, the argument the user callback was invoked with (`none` when the
callback was never called), anything thrown out of the handler, and the
console error/warning traffic. -/
structure FCResult where
  state : MachineState
  callbackArg : Option JVal
  raised : Option String
  consoleErrors : List String
  consoleWarnings : List String

/-- The response handler of `makeFirstContact` (TheBombe.js lines 88-131).
`parse` is the external JSON parser (`JSON.parse`, wrapped by the source in
a try/catch: `none` models a parse exception).  On parse failure the source
logs to the console and returns: nothing is thrown past the handler and the
user callback is not invoked.  On success the `hasMadeFirstContact` flag is
set and each of `sid`, `pingInterval`, `pingTimeout` is copied onto the
machine exactly when it is truthy, with a console warning otherwise; the
parsed value is then passed to the user callback.  The three field updates
are sequential in the source but touch distinct fields, so they are written
field-wise here. -/
def makeFirstContactResponse (parse : String → Option JVal)
    (s : MachineState) (responseText : String) : FCResult :=
  match parse (jsSubstr responseText (jsIndexOf responseText lbrace)) with
  | none =>
    { state := s, callbackArg := none, raised := none,
      consoleErrors := [parseErrorMsg], consoleWarnings := [] }
  | some j =>
    { state :=
        { hasMadeFirstContact := true
          sid := if truthy (jGet j "sid") then jGet j "sid" else s.sid
          requiredPingInterval :=
            if truthy (jGet j "pingInterval") then jGet j "pingInterval"
            else s.requiredPingInterval
          pingTimeout :=
            if truthy (jGet j "pingTimeout") then jGet j "pingTimeout"
            else s.pingTimeout }
      callbackArg := some j
      raised := none
      consoleErrors := []
      consoleWarnings :=
        (if truthy (jGet j "sid") then [] else [sidWarnMsg]) ++
        (if truthy (jGet j "pingInterval") then [] else [pingIntervalWarnMsg]) ++
        (if truthy (jGet j "pingTimeout") then [] else [pingTimeoutWarnMsg]) }

/-- The alternate first-contact data object that may be passed to
`connectWebsocket` (its `data` parameter). -/
structure AltData where
  sid : Option JVal
  pingInterval : Option JVal
  requiredPingInterval : Option JVal
  pingTimeout : Option JVal

/-- The throw sites of `connectWebsocket` (lines 154-162). -/
inductive ConnectError where
  | missingSid : ConnectError
  | missingPingInterval : ConnectError
  | missingPingTimeout : ConnectError
  | noAlternateData : ConnectError
deriving DecidableEq, Repr

/-- Result of `connectWebsocket`: either a synchronous throw (before any
network I/O), or the construction of the websocket (`new WebSocket(...)`,
the first network I/O) with the machine state at that point. -/
inductive ConnectOutcome where
  | thrown : ConnectError → ConnectOutcome
  | openedWebsocket : MachineState → ConnectOutcome

/-- `BombeMachine.prototype.connectWebsocket` up to the point of network
I/O (TheBombe.js lines 148-167).  Validation of the alternate `data` runs
only when the machine has not made first contact; when it has, the source
falls straight through to `new WebSocket(...)` with the state unchanged. -/
def connectWebsocket (s : MachineState) (data : Option AltData) : ConnectOutcome :=
  if s.hasMadeFirstContact then .openedWebsocket s
  else
    match data with
    | some d =>
      if !(truthy d.sid) then .thrown .missingSid
      else if !(truthy d.pingInterval) && !(truthy d.requiredPingInterval) then
        .thrown .missingPingInterval
      else if !(truthy d.pingTimeout) then .thrown .missingPingTimeout
      else .openedWebsocket
        { s with
          sid := d.sid
          requiredPingInterval :=
            if truthy d.requiredPingInterval then d.requiredPingInterval
            else d.pingInterval
          pingTimeout := d.pingTimeout }
    | none => .thrown .noAlternateData

/-! ## The post-upgrade connection (the closures of `websocket.onopen`)

Handler callbacks and pong callbacks are opaque to the core, so they are
type parameters `α` and `β`; calling one is recorded as an `Event`.  The
JS objects `handlers.incoming` / `handlers.outgoing` are association lists
keyed by the shared `handler_id` counter, and `Object.keys` enumerates
their integer-like keys in ascending order. -/

/-- State owned by the `websocket.onopen` closure (TheBombe.js lines
174-183): the shared `handler_id` counter, the two handler tables, and the
pong-callback queue. -/
structure Conn (α β : Type) where
  handlerId : Nat
  incoming : List (Nat × α)
  outgoing : List (Nat × α)
  pingCallbacks : List β
deriving DecidableEq, Repr

/-- The connection state right after the websocket opens (lines 174-183). -/
def connInit (α β : Type) : Conn α β :=
  { handlerId := 0, incoming := [], outgoing := [], pingCallbacks := [] }

/-- Observable effects of the connection operations, in the order the
source performs them. -/
inductive Event (α β : Type) where
  | handlerInvoked : Nat → α → String → Event α β
  | sendHandlerInvoked : Nat → α → String → Event α β
  | pongInvoked : β → Event α β
  | sent : String → Event α β
deriving DecidableEq, Repr

/-- JS object write `m[k] = v`: replace the value if the key exists,
otherwise append the new property. -/
def objSet (m : List (Nat × α)) (k : Nat) (v : α) : List (Nat × α) :=
  if m.any (fun p => p.1 == k) then
    m.map (fun p => if p.1 == k then (k, v) else p)
  else m ++ [(k, v)]

/-- JS object read `m[k]` (`none` for `undefined`). -/
def objGet (m : List (Nat × α)) (k : Nat) : Option α :=
  (m.find? (fun p => p.1 == k)).map (fun p => p.2)

/-- JS `delete m[k]`. -/
def objDelete (m : List (Nat × α)) (k : Nat) : List (Nat × α) :=
  m.filter (fun p => p.1 != k)

/-- Insert into a sorted list (helper for `sortKeys`). -/
def insertSorted (x : Nat) : List Nat → List Nat
  | [] => [x]
  | y :: ys => if x ≤ y then x :: y :: ys else y :: insertSorted x ys

/-- `Object.keys` on an object with integer-like keys enumerates them in
ascending numeric order, whatever the insertion order was. -/
def sortKeys (l : List Nat) : List Nat := l.foldr insertSorted []

/-- `BombeMachine.onReceive` (lines 185-187): store the handler in the
incoming table under the next shared id. -/
def onReceive (c : Conn α β) (handler : α) : Conn α β :=
  { c with incoming := objSet c.incoming c.handlerId handler
           handlerId := c.handlerId + 1 }

/-- `BombeMachine.onSend` (lines 188-190): store the handler in the
outgoing table under the next shared id. -/
def onSend (c : Conn α β) (handler : α) : Conn α β :=
  { c with outgoing := objSet c.outgoing c.handlerId handler
           handlerId := c.handlerId + 1 }

/-- The throw site of `removeHandler` (line 198). -/
inductive RemoveError where
  | invalidId : RemoveError
deriving DecidableEq, Repr

/-- `BombeMachine.removeHandler` (lines 191-200): check the incoming table
first, then the outgoing table, and throw if the id is in neither.
Handlers are functions, which are always truthy in JS, so the source's
truthiness test is a presence test. -/
def removeHandler (c : Conn α β) (id : Nat) : Except RemoveError (Conn α β) :=
  if (objGet c.incoming id).isSome then
    .ok { c with incoming := objDelete c.incoming id }
  else if (objGet c.outgoing id).isSome then
    .ok { c with outgoing := objDelete c.outgoing id }
  else .error .invalidId

/-- `BombeMachine.send` (lines 201-209): optionally log, then forward the
data to the websocket unchanged.  No handler table is consulted. -/
def send (c : Conn α β) (data : String) : Conn α β × List (Event α β) :=
  (c, [Event.sent data])

/-- `BombeMachine.ping` (lines 210-215): transmit the ping frame and
append the callback to the pong queue. -/
def ping (c : Conn α β) (callback : β) : Conn α β × List (Event α β) :=
  ({ c with pingCallbacks := c.pingCallbacks ++ [callback] }, [Event.sent "2"])

/-- `websocket.onmessage` (lines 218-240): a `"3"` frame with a non-empty
pong queue pops and invokes the oldest pong callback (`ping_callbacks[0]`,
then `splice(0, 1)`); any other frame is handed to every incoming handler,
iterating `Object.keys(handlers.incoming)` in ascending key order. -/
def onmessage (c : Conn α β) (data : String) : Conn α β × List (Event α β) :=
  if data = "3" ∧ 0 < c.pingCallbacks.length then
    ({ c with pingCallbacks := c.pingCallbacks.tail },
     (c.pingCallbacks.head?.map Event.pongInvoked).toList)
  else
    (c, (sortKeys (c.incoming.map Prod.fst)).filterMap
      (fun k => (objGet c.incoming k).map
        (fun h => Event.handlerInvoked k h data)))

/-! ## The auto-ping timer state machine (lines 243-277) -/

/-- JS `a || b` on the numeric interval/timeout arguments: `undefined`,
`null` and `0` fall through to the default. -/
def jsOr (arg deflt : Option Nat) : Option Nat :=
  match arg with
  | some n => if n = 0 then deflt else some n
  | none => deflt

/-- The throw sites of `startAutoPing` (line 248) and `stopAutoPing`
(line 271). -/
inductive APError where
  | alreadyRunning : APError
  | notRunning : APError
deriving DecidableEq, Repr

/-- State for the auto-ping machinery: the machine's server-dictated
interval/timeout, the `autoPingID` closure variable (`none` is the source's
`null`), and the scheduling capability's bookkeeping — the next fresh timer
id and the repeating tasks currently scheduled, each recorded with the
interval and timeout values `setInterval` was armed with. -/
structure APState where
  requiredPingInterval : Option Nat
  pingTimeout : Option Nat
  autoPingID : Option Nat
  nextTimerId : Nat
  activeIntervals : List (Nat × Option Nat × Option Nat)
deriving DecidableEq, Repr

/-- `BombeMachine.startAutoPing` (lines 244-267): throw if `autoPingID` is
already set; otherwise default the interval and timeout through `||`,
schedule the repeating task, and store its handle. -/
def startAutoPing (s : APState) (interval timeout : Option Nat) :
    Except APError APState :=
  if s.autoPingID.isSome then .error .alreadyRunning
  else
    .ok { s with
      autoPingID := some s.nextTimerId
      nextTimerId := s.nextTimerId + 1
      activeIntervals := s.activeIntervals ++
        [(s.nextTimerId, jsOr interval s.requiredPingInterval,
          jsOr timeout s.pingTimeout)] }

/-- `BombeMachine.stopAutoPing` (lines 268-277): throw if not running;
otherwise `clearInterval` the scheduled task and clear the handle. -/
def stopAutoPing (s : APState) : Except APError APState :=
  if s.autoPingID.isSome then
    .ok { s with
      autoPingID := none
      activeIntervals :=
        s.activeIntervals.filter (fun iv => some iv.1 != s.autoPingID) }
  else .error .notRunning

/-- Invariant tying the `autoPingID` handle to the scheduled repeating
tasks: when the handle is set it names exactly the one live task, and no
task is live when the handle is clear — so at most one keep-alive loop is
ever active. -/
def apInv (s : APState) : Prop :=
  (∀ id, s.autoPingID = some id → s.activeIntervals.map Prod.fst = [id]) ∧
  (s.autoPingID = none → s.activeIntervals = [])

/-! ## One auto-ping tick (the `setInterval` callback, lines 257-266)

Each tick runs `self.ping(cb)` — sending the `"2"` frame and queueing
`cb`, which does `clearTimeout(timeout_watch)` — and then arms
`timeout_watch = setTimeout(throw ..., timeout)`.  The assignment to
`timeout_watch` happens synchronously inside the tick, before any pong can
be dispatched, so the queued callback always clears the watchdog armed by
its own tick. -/

/-- Timers created by one tick of the auto-ping `setInterval` callback.
`watchdogArmedFor` is the absolute fire time of `timeout_watch`;
`failureAt` records when the fatal "Automatic ping timed out" throw fired,
if it did. -/
structure TickState where
  tickTime : Nat
  pingSentAt : Nat
  watchdogArmedFor : Nat
  watchdogPending : Bool
  pongCallbackQueued : Bool
  failureAt : Option Nat
deriving DecidableEq, Repr

/-- Running the tick body at absolute time `t` with effective timeout `d`:
a ping is sent at `t`, its callback is queued, and the one-shot watchdog is
armed to fire at `t + d` (lines 258-265). -/
def tickBody (t d : Nat) : TickState :=
  { tickTime := t, pingSentAt := t, watchdogArmedFor := t + d,
    watchdogPending := true, pongCallbackQueued := true, failureAt := none }

/-- The queued pong callback runs (the pong frame arrived and
`websocket.onmessage` popped it): `clearTimeout(timeout_watch)` cancels the
watchdog (lines 259-261). -/
def pongCallbackRun (st : TickState) : TickState :=
  { st with pongCallbackQueued := false, watchdogPending := false }

/-- The one-shot watchdog fires: if it is still pending (not cleared by the
pong callback, not already fired) the fatal liveness throw happens at its
armed time (lines 263-265). -/
def watchdogFire (st : TickState) : TickState :=
  if st.watchdogPending then
    { st with watchdogPending := false, failureAt := some st.watchdogArmedFor }
  else st

/-- Event-loop semantics of the scheduling capability for one tick: the
pong callback (run when the pong frame arrives, at `pongArrival`) and the
watchdog (due at `t + d`) execute in time order; a `clearTimeout` that runs
before the fire time cancels the watchdog, and no pong means only the
watchdog runs. -/
def runTick (t d : Nat) (pongArrival : Option Nat) : TickState :=
  match pongArrival with
  | some p =>
    if p < t + d then watchdogFire (pongCallbackRun (tickBody t d))
    else pongCallbackRun (watchdogFire (tickBody t d))
  | none => watchdogFire (tickBody t d)

/-! ## Operation sequences over a connection (for the handler-id claims) -/

/-- The operations a user can perform on an open connection, plus inbound
message delivery. -/
inductive Op (α β : Type) where
  | opOnReceive : α → Op α β
  | opOnSend : α → Op α β
  | opRemoveHandler : Nat → Op α β
  | opSend : String → Op α β
  | opPing : β → Op α β
  | opMessage : String → Op α β

/-- Apply one operation; the second component lists the handler ids issued
by the operation (a throwing `removeHandler` leaves the state unchanged). -/
def applyOp (c : Conn α β) : Op α β → Conn α β × List Nat
  | .opOnReceive h => (onReceive c h, [c.handlerId])
  | .opOnSend h => (onSend c h, [c.handlerId])
  | .opRemoveHandler id =>
    (match removeHandler c id with
     | .ok c' => c'
     | .error _ => c, [])
  | .opSend d => ((send c d).1, [])
  | .opPing cb => ((ping c cb).1, [])
  | .opMessage d => ((onmessage c d).1, [])

/-- Run a sequence of operations, accumulating the issued handler ids in
issue order. -/
def runOps (c : Conn α β) (issued : List Nat) :
    List (Op α β) → Conn α β × List Nat
  | [] => (c, issued)
  | op :: rest =>
    runOps (applyOp c op).1 (issued ++ (applyOp c op).2) rest

/-- The keys of a handler table. -/
def keysOf (m : List (Nat × α)) : List Nat := m.map Prod.fst

/-- Invariant of the handler tables relative to the shared counter: every
key was drawn from the counter (so is below it), each table's keys are
strictly ascending (in particular distinct), and no key is in both
tables. -/
def connInv (c : Conn α β) : Prop :=
  (∀ k ∈ keysOf c.incoming, k < c.handlerId) ∧
  (∀ k ∈ keysOf c.outgoing, k < c.handlerId) ∧
  List.Pairwise (· < ·) (keysOf c.incoming) ∧
  List.Pairwise (· < ·) (keysOf c.outgoing) ∧
  (∀ k ∈ keysOf c.incoming, k ∉ keysOf c.outgoing)

/-! ## Concrete handshake scenarios used by witnesses and counterexamples -/

/-- A handshake object carrying `sid` and `pingInterval` but no
`pingTimeout`. -/
def objSidOnly : JVal := .jobj [("sid", .jstr "abc"), ("pingInterval", .jnum 25000)]

/-- A response body with protocol framing bytes before the JSON (the brace
is at index 3). -/
def bodyA : String := "96:\x7bA"

/-- A JSON-parse capability for `bodyA`: succeeds exactly on the substring
starting at the brace. -/
def parseA : String → Option JVal :=
  fun str => if str = "\x7bA" then some objSidOnly else none

/-- The machine state `bodyA` produces: first contact made, `pingTimeout`
still unset. -/
def stateA : MachineState :=
  { hasMadeFirstContact := true, sid := some (.jstr "abc"),
    requiredPingInterval := some (.jnum 25000), pingTimeout := none }

/-- A JSON-parse capability that fails, as `JSON.parse` does on any of the
single-character substrings a brace-free body leads to (for example the
`"o"` that `"hello".substr(-1)` yields). -/
def parseFails : String → Option JVal := fun _ => none

/-- Alternate first-contact data missing `pingTimeout`. -/
def dNoTimeout : AltData :=
  { sid := some (.jstr "abc"), pingInterval := some (.jnum 25000),
    requiredPingInterval := none, pingTimeout := none }

/-- A complete handshake object. -/
def objFull : JVal :=
  .jobj [("sid", .jstr "abc"), ("pingInterval", .jnum 25000),
         ("pingTimeout", .jnum 5000)]

def bodyF : String := "96:\x7bF"

def parseF : String → Option JVal :=
  fun str => if str = "\x7bF" then some objFull else none

/-- A handshake object that contains `pingInterval` with the (falsy) value
`0`. -/
def objZeroInterval : JVal :=
  .jobj [("sid", .jstr "abc"), ("pingInterval", .jnum 0),
         ("pingTimeout", .jnum 5000)]

def bodyZ : String := "96:\x7bZ"

def parseZ : String → Option JVal :=
  fun str => if str = "\x7bZ" then some objZeroInterval else none

/-! ## C1 — validation of the Session at `connectWebsocket` -/

/-- C1 counterexample: a handshake whose response lacks `pingTimeout`
yields a machine with `hasMadeFirstContact = true` and `pingTimeout`
unset, and a subsequent `connectWebsocket` with no alternate data does NOT
fail synchronously — it proceeds straight to opening the websocket
(network I/O), because validation only runs when first contact has not
been made.  This falsifies the claim that such an `open()` fails with
`ConfigurationError(IncompleteSession)` before any network I/O. -/
theorem open_after_partial_handshake_opens :
    (makeFirstContactResponse parseA machineInit bodyA).state = stateA ∧
    stateA.hasMadeFirstContact = true ∧
    stateA.pingTimeout = none ∧
    connectWebsocket stateA none = ConnectOutcome.openedWebsocket stateA ∧
    connectWebsocket stateA none ≠
      ConnectOutcome.thrown ConnectError.missingPingTimeout :=
  ⟨rfl, rfl, rfl, rfl, fun h => ConnectOutcome.noConfusion h⟩

/-- C1 (amended): `connectWebsocket` validates the session data only when
the machine has not made first contact and alternate data is supplied;
in that case a missing (falsy) `sid`, missing `pingInterval`-equivalent
pair, or missing `pingTimeout` each throws synchronously, before any
network I/O, and absent alternate data also throws. -/
theorem connectWebsocket_validates_only_before_first_contact
    (s : MachineState) (d : AltData) (h : s.hasMadeFirstContact = false) :
    (truthy d.sid = false →
      connectWebsocket s (some d) = ConnectOutcome.thrown ConnectError.missingSid) ∧
    (truthy d.sid = true → truthy d.pingInterval = false →
      truthy d.requiredPingInterval = false →
      connectWebsocket s (some d) =
        ConnectOutcome.thrown ConnectError.missingPingInterval) ∧
    (truthy d.sid = true → truthy d.pingTimeout = false →
      (truthy d.pingInterval = true ∨ truthy d.requiredPingInterval = true) →
      connectWebsocket s (some d) =
        ConnectOutcome.thrown ConnectError.missingPingTimeout) ∧
    connectWebsocket s none = ConnectOutcome.thrown ConnectError.noAlternateData := by
  refine ⟨?_, ?_, ?_, ?_⟩
  · intro hs; simp [connectWebsocket, h, hs]
  · intro hs hp hr; simp [connectWebsocket, h, hs, hp, hr]
  · intro hs ht hor
    rcases hor with hp | hr
    · simp [connectWebsocket, h, hs, hp, ht]
    · simp [connectWebsocket, h, hs, hr, ht]
  · simp [connectWebsocket, h]

/-- C1 witness: with no first contact, alternate data missing
`pingTimeout` makes `connectWebsocket` throw synchronously. -/
theorem connectWebsocket_validates_witness :
    connectWebsocket machineInit (some dNoTimeout) =
      ConnectOutcome.thrown ConnectError.missingPingTimeout :=
  (connectWebsocket_validates_only_before_first_contact machineInit dNoTimeout
    rfl).2.2.1 rfl rfl (Or.inl rfl)

/-! ## C5 — malformed handshake responses -/

/-- C5 counterexample: for the body `"hello"` (no brace anywhere), parsing
fails, and `makeFirstContact`'s handler neither invokes the user callback
nor raises anything — the failure is only written to the console, so it
never reaches a caller-visible callback or raised condition, contrary to
the claim that a `ProtocolError(MalformedHandshake)` is signalled to the
caller. -/
theorem malformed_handshake_swallowed :
    jsIndexOf "hello" lbrace = -1 ∧
    (makeFirstContactResponse parseFails machineInit "hello").callbackArg = none ∧
    (makeFirstContactResponse parseFails machineInit "hello").raised = none ∧
    (makeFirstContactResponse parseFails machineInit "hello").state = machineInit ∧
    (makeFirstContactResponse parseFails machineInit "hello").consoleErrors =
      [parseErrorMsg] :=
  ⟨rfl, rfl, rfl, rfl, rfl⟩

/-- C5 (amended): whenever JSON parsing of the response (from the first
brace, or from the last character when no brace exists) fails, the handler
logs a console error and returns: the user callback is never invoked,
nothing is raised to the caller, and the machine state is unchanged — in
particular no Session is produced, but the failure is silently suppressed
from the caller's point of view. -/
theorem parse_failure_logs_and_returns (parse : String → Option JVal)
    (s : MachineState) (body : String)
    (h : parse (jsSubstr body (jsIndexOf body lbrace)) = none) :
    makeFirstContactResponse parse s body =
      { state := s, callbackArg := none, raised := none,
        consoleErrors := [parseErrorMsg], consoleWarnings := [] } := by
  simp [makeFirstContactResponse, h]

/-- C5 witness: a concrete malformed body. -/
theorem parse_failure_witness :
    makeFirstContactResponse parseFails machineInit "zzz" =
      { state := machineInit, callbackArg := none, raised := none,
        consoleErrors := [parseErrorMsg], consoleWarnings := [] } :=
  parse_failure_logs_and_returns parseFails machineInit "zzz" rfl

/-! ## C6 — missing handshake fields are not an error -/

/-- C6: whenever the response parses, the handler completes: it sets
`hasMadeFirstContact`, invokes the user callback with the parsed value,
raises nothing, and for each of `sid` / `pingInterval` / `pingTimeout`
that is missing from the parsed object simply leaves the machine's field
unset. -/
theorem handshake_missing_fields_not_error (parse : String → Option JVal)
    (body : String) (j : JVal)
    (hp : parse (jsSubstr body (jsIndexOf body lbrace)) = some j) :
    (makeFirstContactResponse parse machineInit body).callbackArg = some j ∧
    (makeFirstContactResponse parse machineInit body).raised = none ∧
    (makeFirstContactResponse parse machineInit body).state.hasMadeFirstContact
      = true ∧
    (jGet j "sid" = none →
      (makeFirstContactResponse parse machineInit body).state.sid = none) ∧
    (jGet j "pingInterval" = none →
      (makeFirstContactResponse parse machineInit body).state.requiredPingInterval
        = none) ∧
    (jGet j "pingTimeout" = none →
      (makeFirstContactResponse parse machineInit body).state.pingTimeout = none) := by
  refine ⟨?_, ?_, ?_, ?_, ?_, ?_⟩
  · simp [makeFirstContactResponse, hp]
  · simp [makeFirstContactResponse, hp]
  · simp [makeFirstContactResponse, hp]
  · intro hnone; simp [makeFirstContactResponse, hp, hnone, truthy, machineInit]
  · intro hnone; simp [makeFirstContactResponse, hp, hnone, truthy, machineInit]
  · intro hnone; simp [makeFirstContactResponse, hp, hnone, truthy, machineInit]

/-- C6 witness: a response missing `pingTimeout` still completes, calls
back with the parsed object, and leaves `pingTimeout` unset. -/
theorem handshake_missing_fields_witness :
    (makeFirstContactResponse parseA machineInit bodyA).callbackArg =
      some objSidOnly ∧
    (makeFirstContactResponse parseA machineInit bodyA).state.pingTimeout = none :=
  ⟨(handshake_missing_fields_not_error parseA bodyA objSidOnly rfl).1,
   (handshake_missing_fields_not_error parseA bodyA objSidOnly rfl).2.2.2.2.2 rfl⟩

/-! ## C7 — copying of handshake fields into the Session -/

/-- C7 counterexample: a parseable response that CONTAINS `pingInterval`
(with the value `0`) yields a machine whose `requiredPingInterval` is
unset rather than equal to the response value: the source tests
truthiness, not presence, so a present-but-falsy field is treated as
missing (with a console warning).  This falsifies the claim for responses
containing all three fields. -/
theorem present_zero_pingInterval_dropped :
    jGet objZeroInterval "pingInterval" = some (JVal.jnum 0) ∧
    jGet objZeroInterval "sid" = some (JVal.jstr "abc") ∧
    jGet objZeroInterval "pingTimeout" = some (JVal.jnum 5000) ∧
    (makeFirstContactResponse parseZ machineInit bodyZ).state.requiredPingInterval
      = none ∧
    (makeFirstContactResponse parseZ machineInit bodyZ).state.requiredPingInterval
      ≠ some (JVal.jnum 0) ∧
    (makeFirstContactResponse parseZ machineInit bodyZ).consoleWarnings =
      [pingIntervalWarnMsg] :=
  ⟨rfl, rfl, rfl, rfl, fun h => Option.noConfusion h, rfl⟩

/-- C7 (amended): for every parseable response containing truthy values
for `sid`, `pingInterval` and `pingTimeout` (non-empty / non-zero /
non-null), the machine ends up with all three fields equal to the response
values and the callback receives the parsed object. -/
theorem handshake_truthy_fields_copied (parse : String → Option JVal)
    (body : String) (j vs vi vt : JVal)
    (hp : parse (jsSubstr body (jsIndexOf body lbrace)) = some j)
    (hs : jGet j "sid" = some vs) (hts : truthy (some vs) = true)
    (hi : jGet j "pingInterval" = some vi) (hti : truthy (some vi) = true)
    (ht : jGet j "pingTimeout" = some vt) (htt : truthy (some vt) = true) :
    (makeFirstContactResponse parse machineInit body).state =
      { hasMadeFirstContact := true, sid := some vs,
        requiredPingInterval := some vi, pingTimeout := some vt } ∧
    (makeFirstContactResponse parse machineInit body).callbackArg = some j := by
  simp [makeFirstContactResponse, hp, hs, hts, hi, hti, ht, htt]

/-- C7 witness: a complete response is copied field-for-field. -/
theorem handshake_truthy_fields_witness :
    (makeFirstContactResponse parseF machineInit bodyF).state =
      { hasMadeFirstContact := true, sid := some (JVal.jstr "abc"),
        requiredPingInterval := some (JVal.jnum 25000),
        pingTimeout := some (JVal.jnum 5000) } :=
  (handshake_truthy_fields_copied parseF bodyF objFull (JVal.jstr "abc")
    (JVal.jnum 25000) (JVal.jnum 5000) rfl rfl rfl rfl rfl rfl rfl).1

/-! ## Dispatch helper lemmas -/

/-- Inserting below every element of a list is a cons. -/
theorem insertSorted_of_forall_le (x : Nat) (l : List Nat) (h : ∀ y ∈ l, x ≤ y) :
    insertSorted x l = x :: l := by
  cases l with
  | nil => rfl
  | cons y ys => simp [insertSorted, h y (List.mem_cons_self y ys)]

/-- `Object.keys` enumeration is the identity on an already-ascending key
list. -/
theorem sortKeys_of_pairwise_le (l : List Nat) (h : List.Pairwise (· ≤ ·) l) :
    sortKeys l = l := by
  induction l with
  | nil => rfl
  | cons x xs ih =>
    rw [List.pairwise_cons] at h
    show insertSorted x (sortKeys xs) = x :: xs
    rw [ih h.2, insertSorted_of_forall_le x xs h.1]

/-- Object reads skip an entry with a different key. -/
theorem objGet_cons_ne {α : Type} (k k' : Nat) (v : α) (m : List (Nat × α))
    (h : ¬ (k = k')) : objGet ((k, v) :: m) k' = objGet m k' := by
  simp only [objGet, List.find?]
  have hb : (k == k') = false := by simpa using h
  simp [hb]

/-- Looking every key of a table back up in the table visits each entry
exactly once, in key order, when the keys are strictly ascending. -/
theorem dispatch_keys {α γ : Type} (m : List (Nat × α)) (f : Nat → α → γ)
    (hm : List.Pairwise (· < ·) (m.map Prod.fst)) :
    (m.map Prod.fst).filterMap (fun k => (objGet m k).map (f k)) =
      m.map (fun p => f p.1 p.2) := by
  induction m with
  | nil => rfl
  | cons p m ih =>
    obtain ⟨k, v⟩ := p
    rw [List.map_cons] at hm
    rw [List.pairwise_cons] at hm
    have h1 : objGet ((k, v) :: m) k = some v := by simp [objGet, List.find?]
    rw [List.map_cons, List.filterMap_cons, h1]
    have hcong : ∀ k' ∈ m.map Prod.fst,
        (objGet ((k, v) :: m) k').map (f k') = (objGet m k').map (f k') := by
      intro k' hk'
      rw [objGet_cons_ne k k' v m]
      intro he
      exact absurd (hm.1 k' hk') (by omega)
    rw [List.filterMap_congr hcong, ih hm.2]
    simp

/-- Recognizer for send-handler invocation events. -/
def isSendHandlerEvent : Event α β → Bool
  | .sendHandlerInvoked _ _ _ => true
  | _ => false

/-! ## C2 — send-handlers and `send` -/

/-- C2 counterexample: with a receive-handler (id 0) and a send-handler
(id 1) registered, `send "x"` produces only the transmission of `"x"`:
the registered send-handler is never invoked — `send` (lines 201-209)
consults no handler table at all.  This falsifies the claim that every
registered send-handler is invoked with the payload before it is
transmitted. -/
theorem send_handler_not_invoked :
    (onSend (onReceive (connInit Nat Nat) 5) 6).outgoing = [(1, 6)] ∧
    send (onSend (onReceive (connInit Nat Nat) 5) 6) "x" =
      (onSend (onReceive (connInit Nat Nat) 5) 6, [Event.sent "x"]) ∧
    ((send (onSend (onReceive (connInit Nat Nat) 5) 6) "x").2.filter
      isSendHandlerEvent) = [] :=
  ⟨rfl, rfl, rfl⟩

/-- C2 (amended): `send(payload)` forwards the payload verbatim to the
transport — the transmitted frame is exactly the argument, the connection
state is untouched — but send-handlers are never offered the frame: no
send-handler invocation ever occurs. -/
theorem send_forwards_verbatim (α β : Type) (c : Conn α β) (payload : String) :
    send c payload = (c, [Event.sent payload]) ∧
    ((send c payload).2.filter isSendHandlerEvent) = [] :=
  ⟨rfl, rfl⟩

/-! ## C3 — pong consumption is FIFO and invisible -/

/-- C3: when a `"3"` frame arrives with a non-empty pong queue, the oldest
queued callback is popped and is the only thing invoked (the frame reaches
no receive-handler), the queue shrinks by exactly its head, and `ping`
appends at the tail — so pong resolution is strictly FIFO against ping
issuance. -/
theorem pong_resolves_oldest_fifo (α β : Type) (c : Conn α β) (cb : β)
    (rest : List β) (h : c.pingCallbacks = cb :: rest) :
    onmessage c "3" =
      ({ c with pingCallbacks := rest }, [Event.pongInvoked cb]) ∧
    (∀ cb2 : β, (ping c cb2).1.pingCallbacks = c.pingCallbacks ++ [cb2]) := by
  constructor
  · simp [onmessage, h]
  · intro cb2; simp [ping]

/-- C3 witness: one outstanding ping, pong arrives: its callback is
invoked once, the queue empties, nothing is dispatched to handlers. -/
theorem pong_resolves_oldest_witness :
    onmessage (⟨0, [], [], [7]⟩ : Conn Nat Nat) "3" =
      (⟨0, [], [], []⟩, [Event.pongInvoked 7]) ∧
    (ping (⟨0, [], [], [7]⟩ : Conn Nat Nat) 8).1.pingCallbacks = [7, 8] :=
  ⟨(pong_resolves_oldest_fifo Nat Nat ⟨0, [], [], [7]⟩ 7 [] rfl).1,
   (pong_resolves_oldest_fifo Nat Nat ⟨0, [], [], [7]⟩ 7 [] rfl).2 8⟩

/-! ## C4 — dispatch of non-pong frames -/

/-- C4: any frame other than `"3"` leaves the connection state (including
the pong queue) unchanged and invokes every registered receive-handler
exactly once, in table order, with exactly the received string.  The
hypothesis that the incoming table's keys are strictly ascending holds for
every reachable connection (ids come from the increasing shared counter,
see the handler-id invariant), and makes table order the registration
order. -/
theorem non_pong_dispatch (α β : Type) (c : Conn α β) (data : String)
    (hd : data ≠ "3")
    (hs : List.Pairwise (· < ·) (keysOf c.incoming)) :
    onmessage c data =
      (c, c.incoming.map (fun p => Event.handlerInvoked p.1 p.2 data)) := by
  unfold onmessage
  rw [if_neg (fun hcontra => hd hcontra.1)]
  have hs' : List.Pairwise (· < ·) (c.incoming.map Prod.fst) := hs
  rw [sortKeys_of_pairwise_le _ (hs'.imp (fun hlt => Nat.le_of_lt hlt)),
    dispatch_keys _ _ hs']

/-- C4 witness: two registered receive-handlers both see the non-pong
frame, in registration order, and the state is unchanged. -/
theorem non_pong_dispatch_witness :
    ("42x" ≠ "3") ∧
    onmessage (⟨2, [(0, 10), (1, 11)], [], []⟩ : Conn Nat Nat) "42x" =
      (⟨2, [(0, 10), (1, 11)], [], []⟩,
       [Event.handlerInvoked 0 10 "42x", Event.handlerInvoked 1 11 "42x"]) :=
  ⟨by decide, non_pong_dispatch Nat Nat ⟨2, [(0, 10), (1, 11)], [], []⟩ "42x"
    (by decide) (by decide)⟩

/-! ## C8 — the auto-ping start/stop state machine -/

/-- `startAutoPing` on a clear handle schedules the repeating task with the
`||`-defaulted interval and timeout and stores its handle. -/
theorem startAutoPing_ok (s : APState) (i t : Option Nat)
    (hid : s.autoPingID = none) :
    startAutoPing s i t = Except.ok
      { s with autoPingID := some s.nextTimerId
               nextTimerId := s.nextTimerId + 1
               activeIntervals := s.activeIntervals ++
                 [(s.nextTimerId, jsOr i s.requiredPingInterval,
                   jsOr t s.pingTimeout)] } := by
  simp [startAutoPing, hid]

/-- `stopAutoPing` on a set handle cancels the scheduled task and clears
the handle. -/
theorem stopAutoPing_ok (s : APState) (id : Nat) (hid : s.autoPingID = some id) :
    stopAutoPing s = Except.ok
      { s with autoPingID := none
               activeIntervals :=
                 s.activeIntervals.filter (fun iv => some iv.1 != s.autoPingID) } := by
  simp [stopAutoPing, hid]

/-- C8: under the handle/task invariant, `startAutoPing` throws
`AlreadyRunning` exactly when the handle is set, `stopAutoPing` throws
`NotRunning` exactly when it is clear, at most one repeating keep-alive
task is ever scheduled, and the sequence start–start–stop–start behaves
as claimed: the second start fails, the stop succeeds and clears the
handle, and the final start succeeds again. -/
theorem autoPing_at_most_one (s : APState) (i t i2 t2 : Option Nat)
    (h : apInv s) :
    (s.autoPingID.isSome = true →
      startAutoPing s i t = Except.error APError.alreadyRunning) ∧
    (s.autoPingID = none → stopAutoPing s = Except.error APError.notRunning) ∧
    s.activeIntervals.length ≤ 1 ∧
    (∀ s1, startAutoPing s i t = Except.ok s1 →
      apInv s1 ∧ s1.activeIntervals.length = 1 ∧
      startAutoPing s1 i2 t2 = Except.error APError.alreadyRunning ∧
      ∃ s2, stopAutoPing s1 = Except.ok s2 ∧ s2.autoPingID = none ∧
        apInv s2 ∧
        ∃ s3, startAutoPing s2 i2 t2 = Except.ok s3 ∧ apInv s3 ∧
          s3.activeIntervals.length = 1) := by
  refine ⟨?_, ?_, ?_, ?_⟩
  · intro hsome; simp [startAutoPing, hsome]
  · intro hnone; simp [stopAutoPing, hnone]
  · cases hid : s.autoPingID with
    | some id =>
      have hmap := h.1 id hid
      have hlen : s.activeIntervals.length = 1 := by
        have := congrArg List.length hmap
        simpa using this
      omega
    | none => simp [h.2 hid]
  · intro s1 hok
    cases hid : s.autoPingID with
    | some id => simp [startAutoPing, hid] at hok
    | none =>
      have hiv : s.activeIntervals = [] := h.2 hid
      rw [startAutoPing_ok s i t hid] at hok
      injection hok with hok
      subst hok
      refine ⟨⟨fun id hid' => by injection hid' with hid'; subst hid'; simp [hiv],
               fun hn => by exact Option.noConfusion hn⟩,
              by simp [hiv], by simp [startAutoPing], ?_⟩
      refine ⟨_, stopAutoPing_ok _ s.nextTimerId rfl, rfl, ?_, ?_⟩
      · exact ⟨fun id hid' => by exact Option.noConfusion hid', fun _ => by simp [hiv]⟩
      · refine ⟨_, startAutoPing_ok _ i2 t2 rfl, ?_, by simp [hiv]⟩
        exact ⟨fun id hid' => by injection hid' with hid'; subst hid'; simp [hiv],
               fun hn => by exact Option.noConfusion hn⟩

/-- A machine ready to start auto-pinging (server interval 25000ms,
timeout 5000ms, nothing scheduled). -/
def apDemo : APState :=
  { requiredPingInterval := some 25000, pingTimeout := some 5000,
    autoPingID := none, nextTimerId := 0, activeIntervals := [] }

/-- The state after the first successful `startAutoPing` on `apDemo`. -/
def apDemo1 : APState :=
  { requiredPingInterval := some 25000, pingTimeout := some 5000,
    autoPingID := some 0, nextTimerId := 1,
    activeIntervals := [(0, some 25000, some 5000)] }

/-- C8 witness: the concrete start–start–stop facts on `apDemo`. -/
theorem autoPing_at_most_one_witness :
    stopAutoPing apDemo = Except.error APError.notRunning ∧
    startAutoPing apDemo1 none none = Except.error APError.alreadyRunning ∧
    apDemo1.activeIntervals.length = 1 :=
  have h := autoPing_at_most_one apDemo none none none none
    ⟨fun _ hid => Option.noConfusion hid, fun _ => rfl⟩
  ⟨h.2.1 rfl, (h.2.2.2 apDemo1 rfl).2.2.1, (h.2.2.2 apDemo1 rfl).2.1⟩

/-! ## C9 — the per-tick watchdog race -/

/-- C9: each auto-ping tick sends a ping at the tick time and arms the
one-shot watchdog to fire at tick time plus the effective timeout (the
explicit non-zero argument, else the Session's `pingTimeout`, through the
same `||` defaulting `startAutoPing` applies); when no pong callback runs,
the fatal timeout throw fires exactly at tick + timeout, with no further
tick involved; and a pong arriving before the watchdog's fire time clears
the watchdog, so no failure is raised for that tick. -/
theorem keepAlive_watchdog_race (t d p n : Nat) (sessionTO : Option Nat)
    (hnz : n ≠ 0) (hp : p < t + d) :
    jsOr (some n) sessionTO = some n ∧
    jsOr none sessionTO = sessionTO ∧
    (tickBody t d).pingSentAt = t ∧
    (tickBody t d).watchdogArmedFor = t + d ∧
    (runTick t d none).failureAt = some (t + d) ∧
    (runTick t d (some p)).failureAt = none ∧
    (runTick t d (some p)).watchdogPending = false := by
  refine ⟨by simp [jsOr, hnz], rfl, rfl, rfl, rfl, ?_, ?_⟩ <;>
    simp [runTick, hp, pongCallbackRun, watchdogFire, tickBody]

/-- C9 witness: the spec's simulated scenario — interval 1000ms, timeout
500ms.  With no pong the failure is observable at 1500ms, before the
second tick at 2000ms would even run; with a pong at 1200ms no failure
occurs. -/
theorem keepAlive_watchdog_witness :
    (runTick 1000 500 none).failureAt = some 1500 ∧
    (runTick 1000 500 (some 1200)).failureAt = none ∧
    jsOr (some 500) (some 5000) = some 500 ∧
    1000 + 500 < 1000 + 1000 :=
  have h := keepAlive_watchdog_race 1000 500 1200 500 (some 5000)
    (by decide) (by decide)
  ⟨h.2.2.2.2.1, h.2.2.2.2.2.1, h.1, by decide⟩

/-! ## C10 — handler ids come from one shared counter -/

/-- Writing a key absent from an object appends the property. -/
theorem objSet_fresh {α : Type} (m : List (Nat × α)) (k : Nat) (v : α)
    (h : ∀ k' ∈ m.map Prod.fst, k' ≠ k) : objSet m k v = m ++ [(k, v)] := by
  unfold objSet
  rw [if_neg]
  simp only [List.any_eq_true, beq_iff_eq, not_exists]
  rintro p ⟨hp, hk⟩
  exact h p.1 (List.mem_map_of_mem _ hp) hk

/-- Deleting a property keeps the remaining keys a sublist. -/
theorem keysOf_objDelete_sublist {α : Type} (m : List (Nat × α)) (id : Nat) :
    (keysOf (objDelete m id)).Sublist (keysOf m) :=
  (List.filter_sublist m).map Prod.fst

/-- The fresh connection satisfies the handler-table invariant. -/
theorem connInv_init (α β : Type) : connInv (connInit α β) := by
  refine ⟨?_, ?_, ?_, ?_, ?_⟩ <;> simp [connInit, keysOf]

/-- Registering a receive-handler preserves the invariant: the new key is
the counter value, strictly above every key already in either table. -/
theorem connInv_onReceive {α β : Type} (c : Conn α β) (h : connInv c) (hl : α) :
    connInv (onReceive c hl) := by
  obtain ⟨hin, hout, hpin, hpout, hdisj⟩ := h
  have hfresh : ∀ k' ∈ c.incoming.map Prod.fst, k' ≠ c.handlerId :=
    fun k' hk' => Nat.ne_of_lt (hin k' hk')
  have hset : objSet c.incoming c.handlerId hl = c.incoming ++ [(c.handlerId, hl)] :=
    objSet_fresh _ _ _ hfresh
  have hkeys : keysOf (onReceive c hl).incoming = keysOf c.incoming ++ [c.handlerId] := by
    simp [onReceive, hset, keysOf]
  refine ⟨?_, ?_, ?_, ?_, ?_⟩
  · intro k hk
    rw [hkeys] at hk
    rcases List.mem_append.mp hk with hk | hk
    · exact Nat.lt_succ_of_lt (hin k hk)
    · simp at hk; subst hk; exact Nat.lt_succ_self _
  · intro k hk
    exact Nat.lt_succ_of_lt (hout k hk)
  · rw [hkeys, List.pairwise_append]
    exact ⟨hpin, List.pairwise_singleton _ _,
      fun a ha b hb => by simp at hb; subst hb; exact hin a ha⟩
  · exact hpout
  · intro k hk
    rw [hkeys] at hk
    rcases List.mem_append.mp hk with hk | hk
    · exact hdisj k hk
    · simp at hk; subst hk
      exact fun hmem => absurd (hout _ hmem) (by omega)

/-- Registering a send-handler preserves the invariant. -/
theorem connInv_onSend {α β : Type} (c : Conn α β) (h : connInv c) (hl : α) :
    connInv (onSend c hl) := by
  obtain ⟨hin, hout, hpin, hpout, hdisj⟩ := h
  have hfresh : ∀ k' ∈ c.outgoing.map Prod.fst, k' ≠ c.handlerId :=
    fun k' hk' => Nat.ne_of_lt (hout k' hk')
  have hset : objSet c.outgoing c.handlerId hl = c.outgoing ++ [(c.handlerId, hl)] :=
    objSet_fresh _ _ _ hfresh
  have hkeys : keysOf (onSend c hl).outgoing = keysOf c.outgoing ++ [c.handlerId] := by
    simp [onSend, hset, keysOf]
  refine ⟨?_, ?_, ?_, ?_, ?_⟩
  · intro k hk
    exact Nat.lt_succ_of_lt (hin k hk)
  · intro k hk
    rw [hkeys] at hk
    rcases List.mem_append.mp hk with hk | hk
    · exact Nat.lt_succ_of_lt (hout k hk)
    · simp at hk; subst hk; exact Nat.lt_succ_self _
  · exact hpin
  · rw [hkeys, List.pairwise_append]
    exact ⟨hpout, List.pairwise_singleton _ _,
      fun a ha b hb => by simp at hb; subst hb; exact hout a ha⟩
  · intro k hk
    rw [hkeys]
    intro hmem
    rcases List.mem_append.mp hmem with hm | hm
    · exact hdisj k hk hm
    · simp at hm; subst hm; exact absurd (hin _ hk) (by omega)

/-- Connections with the same counter and tables share the invariant. -/
theorem connInv_of_same_tables {α β : Type} (c c' : Conn α β)
    (hh : c'.handlerId = c.handlerId) (hi : c'.incoming = c.incoming)
    (ho : c'.outgoing = c.outgoing) (h : connInv c) : connInv c' := by
  obtain ⟨hin, hout, hpin, hpout, hdisj⟩ := h
  exact ⟨by rw [hi, hh]; exact hin, by rw [ho, hh]; exact hout,
    by rw [hi]; exact hpin, by rw [ho]; exact hpout,
    by rw [hi, ho]; exact hdisj⟩

/-- The connection state after `removeHandler` (throwing leaves it
unchanged), computed case by case. -/
theorem removeHandler_state {α β : Type} (c : Conn α β) (id : Nat) :
    (match removeHandler c id with | .ok c' => c' | .error _ => c) =
    (if (objGet c.incoming id).isSome then
      { c with incoming := objDelete c.incoming id }
     else if (objGet c.outgoing id).isSome then
      { c with outgoing := objDelete c.outgoing id }
     else c) := by
  unfold removeHandler
  by_cases h1 : (objGet c.incoming id).isSome
  · simp [h1]
  · by_cases h2 : (objGet c.outgoing id).isSome
    · simp [h1, h2]
    · simp [h1, h2]

/-- `removeHandler` preserves the invariant. -/
theorem connInv_removeHandler {α β : Type} (c : Conn α β) (id : Nat)
    (h : connInv c) :
    connInv (match removeHandler c id with | .ok c' => c' | .error _ => c) := by
  obtain ⟨hin, hout, hpin, hpout, hdisj⟩ := h
  rw [removeHandler_state]
  split
  · refine ⟨?_, hout, ?_, hpout, ?_⟩
    · intro k hk
      exact hin k ((keysOf_objDelete_sublist c.incoming id).subset hk)
    · exact hpin.sublist (keysOf_objDelete_sublist c.incoming id)
    · intro k hk
      exact hdisj k ((keysOf_objDelete_sublist c.incoming id).subset hk)
  · split
    · refine ⟨hin, ?_, hpin, ?_, ?_⟩
      · intro k hk
        exact hout k ((keysOf_objDelete_sublist c.outgoing id).subset hk)
      · exact hpout.sublist (keysOf_objDelete_sublist c.outgoing id)
      · intro k hk hmem
        exact hdisj k hk ((keysOf_objDelete_sublist c.outgoing id).subset hmem)
    · exact ⟨hin, hout, hpin, hpout, hdisj⟩

/-- `removeHandler` never touches the shared counter. -/
theorem removeHandler_handlerId {α β : Type} (c : Conn α β) (id : Nat) :
    (match removeHandler c id with | .ok c' => c' | .error _ => c).handlerId =
      c.handlerId := by
  rw [removeHandler_state]
  split
  · rfl
  · split
    · rfl
    · rfl

/-- Inbound dispatch preserves the invariant (it never touches the
tables or the counter). -/
theorem connInv_onmessage {α β : Type} (c : Conn α β) (data : String)
    (h : connInv c) : connInv (onmessage c data).1 := by
  unfold onmessage
  split
  · exact connInv_of_same_tables c _ rfl rfl rfl h
  · exact h

/-- Inbound dispatch never touches the shared counter. -/
theorem onmessage_handlerId {α β : Type} (c : Conn α β) (data : String) :
    (onmessage c data).1.handlerId = c.handlerId := by
  unfold onmessage
  split
  · rfl
  · rfl

/-- One step preserves the invariant; the counter never decreases; the
ids issued by the step are below the new counter, ascending, and at or
above the old counter. -/
theorem applyOp_inv {α β : Type} (c : Conn α β) (op : Op α β) (h : connInv c) :
    connInv (applyOp c op).1 ∧
    c.handlerId ≤ (applyOp c op).1.handlerId ∧
    (∀ k ∈ (applyOp c op).2, k < (applyOp c op).1.handlerId) ∧
    List.Pairwise (· < ·) (applyOp c op).2 ∧
    (∀ k ∈ (applyOp c op).2, c.handlerId ≤ k) := by
  cases op with
  | opOnReceive hl =>
    refine ⟨connInv_onReceive c h hl, Nat.le_succ _, ?_, ?_, ?_⟩ <;>
      simp [applyOp, onReceive]
  | opOnSend hl =>
    refine ⟨connInv_onSend c h hl, Nat.le_succ _, ?_, ?_, ?_⟩ <;>
      simp [applyOp, onSend]
  | opRemoveHandler id =>
    refine ⟨connInv_removeHandler c id h, ?_, by simp [applyOp], by simp [applyOp],
      by simp [applyOp]⟩
    show c.handlerId ≤ (match removeHandler c id with
      | .ok c' => c' | .error _ => c).handlerId
    rw [removeHandler_handlerId]
  | opSend d =>
    exact ⟨h, Nat.le_refl _, by simp [applyOp, send], by simp [applyOp, send],
      by simp [applyOp, send]⟩
  | opPing cb =>
    exact ⟨connInv_of_same_tables c _ rfl rfl rfl h, Nat.le_refl _,
      by simp [applyOp, ping], by simp [applyOp, ping], by simp [applyOp, ping]⟩
  | opMessage d =>
    refine ⟨connInv_onmessage c d h, ?_, by simp [applyOp], by simp [applyOp],
      by simp [applyOp]⟩
    show c.handlerId ≤ (onmessage c d).1.handlerId
    rw [onmessage_handlerId]

/-- Running any operation sequence preserves the invariant and keeps the
full issue history strictly ascending and below the final counter. -/
theorem runOps_inv {α β : Type} (ops : List (Op α β)) (c : Conn α β)
    (issued : List Nat) (hc : connInv c)
    (hp : List.Pairwise (· < ·) issued)
    (hb : ∀ k ∈ issued, k < c.handlerId) :
    connInv (runOps c issued ops).1 ∧
    List.Pairwise (· < ·) (runOps c issued ops).2 ∧
    (∀ k ∈ (runOps c issued ops).2, k < (runOps c issued ops).1.handlerId) := by
  induction ops generalizing c issued with
  | nil => exact ⟨hc, hp, hb⟩
  | cons op rest ih =>
    have ha := applyOp_inv c op hc
    show connInv (runOps (applyOp c op).1 (issued ++ (applyOp c op).2) rest).1 ∧ _
    refine ih (applyOp c op).1 (issued ++ (applyOp c op).2) ha.1 ?_ ?_
    · rw [List.pairwise_append]
      exact ⟨hp, ha.2.2.2.1,
        fun a haa b hbb => Nat.lt_of_lt_of_le (hb a haa) (ha.2.2.2.2 b hbb)⟩
    · intro k hk
      rcases List.mem_append.mp hk with hk | hk
      · exact Nat.lt_of_lt_of_le (hb k hk) ha.2.1
      · exact ha.2.2.1 k hk

/-- C10: over every operation sequence on a fresh connection, the handler
ids issued (to receive- and send-handlers alike, from the one shared
`handler_id` counter) form a strictly increasing sequence — so each new id
exceeds every previously issued id in either direction and no id, once
removed, is ever reissued — and at every point no id is present in both
the incoming and outgoing tables at once, which is what makes
`removeHandler`'s two-table lookup unambiguous. -/
theorem handler_ids_shared_counter (α β : Type) (ops : List (Op α β)) :
    List.Pairwise (· < ·) (runOps (connInit α β) [] ops).2 ∧
    (∀ k ∈ keysOf (runOps (connInit α β) [] ops).1.incoming,
      k ∉ keysOf (runOps (connInit α β) [] ops).1.outgoing) ∧
    (∀ k ∈ keysOf (runOps (connInit α β) [] ops).1.incoming,
      k < (runOps (connInit α β) [] ops).1.handlerId) ∧
    (∀ k ∈ keysOf (runOps (connInit α β) [] ops).1.outgoing,
      k < (runOps (connInit α β) [] ops).1.handlerId) := by
  have h := runOps_inv ops (connInit α β) [] (connInv_init α β)
    (List.Pairwise.nil) (by simp)
  exact ⟨h.2.1, h.1.2.2.2.2, h.1.1, h.1.2.1⟩

end TheBombe
